import Mathlib

/-!
Shallow embedding of the pane-layout computation and session-provisioning
code of the `lfg` repository (package `internal/tmux`, file `tmux.go`,
middle historical variant — the one the specification describes — together
with the configuration model of `internal/config`).

External `tmux` invocations are modelled as values of an `Op` type; each
provisioning function returns the list of operations it issues together
with its `error` result (`Except String Unit`, `.ok` standing for a `nil`
Go error).  The outside world (does the session exist, what does
`list-windows` print, does a given command succeed) is an explicit
`TmuxEnv` record.  Go's `int` is modelled as `Int` (with `Int.tdiv`, which
truncates toward zero exactly as Go division does); a Go runtime panic on
division by zero is modelled as an explicit error result.
-/

/-! ## Go string primitives used by the source -/

/-- `unicode.IsSpace` restricted to the Latin-1 range, which is the only
range the repository's inputs exercise (`'\t'`, `'\n'`, `'\v'`, `'\f'`,
`'\r'`, `' '`, U+0085, U+00A0). -/
def goIsSpace (c : Char) : Bool :=
  c = ' ' ∨ c = '\t' ∨ c = '\n' ∨ c = '\x0b' ∨ c = '\x0c' ∨ c = '\r' ∨
    c = '\x85' ∨ c = '\xa0'

/-- `strings.TrimSpace`: drop leading and trailing white space. -/
def goTrimSpace (s : String) : String :=
  String.mk (((s.data.dropWhile goIsSpace).reverse.dropWhile goIsSpace).reverse)

/-- `strings.TrimSuffix(s, "%")`: remove one trailing `%` if present. -/
def goTrimSuffixPct (s : String) : String :=
  match s.data.reverse with
  | '%' :: rest => String.mk rest.reverse
  | _ => s

/-- `strconv.Atoi`: optional sign, then at least one decimal digit, nothing
else; values outside the 64-bit signed range give `ErrRange`.  `none`
models a non-`nil` error. -/
def goAtoi (s : String) : Option Int :=
  let signed : Int × List Char :=
    match s.data with
    | '-' :: rest => (-1, rest)
    | '+' :: rest => (1, rest)
    | cs => (1, cs)
  let sign := signed.1
  let digits := signed.2
  if digits.isEmpty then none
  else if digits.all Char.isDigit then
    let n : Nat := digits.foldl (fun acc d => acc * 10 + (d.toNat - '0'.toNat)) 0
    let v : Int := sign * (n : Int)
    if v < -(2 ^ 63) ∨ 2 ^ 63 ≤ v then none else some v
  else none

/-- `parsePercentage` (tmux.go): trim space, strip a trailing `%`, then
`strconv.Atoi`; any parse error yields `0`. -/
def parsePercentage (s : String) : Int :=
  let t := goTrimSuffixPct (goTrimSpace s)
  match goAtoi t with
  | none => 0
  | some v => v

/-- `strings.ReplaceAll(s, ".", "_")`, transcribed as the character scan it
amounts to for a single-character pattern. -/
def replaceDotChars : List Char → List Char
  | [] => []
  | c :: cs => (if c = '.' then '_' else c) :: replaceDotChars cs

/-- `SanitizeSessionName` (tmux.go): replace dots with underscores, since
tmux does not allow dots in session names. -/
def SanitizeSessionName (name : String) : String :=
  String.mk (replaceDotChars name.data)

/-- `sanitizeSessionName`: backward-compatibility wrapper. -/
def sanitizeSessionName (name : String) : String :=
  SanitizeSessionName name

/-- `strings.Split(s, "\n")`, on character lists; `Split` of the empty
string yields one empty piece, as in Go. -/
def splitNL : List Char → List (List Char)
  | [] => [[]]
  | '\n' :: cs => [] :: splitNL cs
  | c :: cs =>
    match splitNL cs with
    | [] => [[c]]
    | l :: ls => (c :: l) :: ls

/-! ## Configuration model (`internal/config`) -/

/-- `config.TmuxWindow`. -/
structure TmuxWindow where
  Name : String
  Command : Option String
  deriving DecidableEq

/-- `config.Pane`: one cell of a multi-pane row. -/
structure Pane where
  Name : String
  Width : String
  Command : Option String
  deriving DecidableEq

/-- `config.LayoutRow`: one horizontal band of the work area. -/
structure LayoutRow where
  Height : String
  Name : String
  Command : Option String
  Panes : List Pane
  deriving DecidableEq

/-- `config.Todo` (not used by the layout algorithm; carried for
faithfulness of the `Config` record). -/
structure Todo where
  Description : String
  Status : String
  Worktree : String
  deriving DecidableEq

/-- `config.Config` (the `StorageBackend` pointer is irrelevant to every
embedded function and is elided). -/
structure Config where
  Name : String
  WorktreeNaming : String
  Todos : List Todo
  Windows : List TmuxWindow
  Layout : List LayoutRow
  configPath : String
  deriving DecidableEq

/-- `Config.GetConfigPath`. -/
def Config.GetConfigPath (c : Config) : String :=
  c.configPath

/-- The `append` loop of `GetLayout` converting legacy windows to rows. -/
def windowsToRows (height : String) : List TmuxWindow → List LayoutRow
  | [] => []
  | w :: ws =>
    { Height := height, Name := w.Name, Command := w.Command, Panes := [] } ::
      windowsToRows height ws

/-- `Config.GetLayout`: prefer the modern `layout` list; otherwise convert
the legacy `windows` list, one row per window, each with height
`100 / windowCount` percent (Go integer division of two non-negative
ints, rendered with Sprintf as a decimal followed by a percent sign);
otherwise empty. -/
def Config.GetLayout (c : Config) : List LayoutRow :=
  if 0 < c.Layout.length then c.Layout
  else if 0 < c.Windows.length then
    windowsToRows (toString (100 / c.Windows.length) ++ "%") c.Windows
  else []

/-! ## External tmux operations and environment -/

/-- One issued `tmux` command.  A Go target string of the form
`session:window.pane` is represented structurally as the session name, the
window name and an optional pane index; `dir` is the `-c` working
directory. -/
inductive Op where
  | hasSession (name : String)
  | newSession (name : String) (dir : String)
  | renameWindow (session : String) (window : String) (newName : String)
  | setOption (session : String) (opt : String) (val : String)
  | listWindows (session : String)
  | killWindow (session : String) (window : String)
  | newWindow (session : String) (window : String) (dir : String)
  | splitV (session : String) (window : String) (pane : Option Nat)
      (percent : Int) (dir : String)
  | splitH (session : String) (window : String) (pane : Option Nat)
      (percent : Int) (dir : String)
  | sendKeys (session : String) (window : String) (pane : Nat) (keys : String)
  | selectPane (session : String) (window : String) (pane : Nat)
  | killSession (name : String)
  | switchClient (session : String)
  | attachClient (name : String)
  deriving DecidableEq

/-- Is this a `send-keys` (command-injection) operation? -/
def Op.isSendKeys : Op → Bool
  | .sendKeys .. => true
  | _ => false

/-- Is this a structural split operation (vertical or horizontal)? -/
def Op.isSplit : Op → Bool
  | .splitV .. => true
  | .splitH .. => true
  | _ => false

/-- Is this a vertical split? -/
def Op.isVSplit : Op → Bool
  | .splitV .. => true
  | _ => false

/-- Is this a `kill-window`? -/
def Op.isKillWindow : Op → Bool
  | .killWindow .. => true
  | _ => false

/-- Is this a `kill-session`? -/
def Op.isKillSession : Op → Bool
  | .killSession .. => true
  | _ => false

/-- Does this operation mutate or create layout (split, create-window,
kill-window)? -/
def Op.isStructural : Op → Bool
  | .splitV .. => true
  | .splitH .. => true
  | .newWindow .. => true
  | .killWindow .. => true
  | _ => false

/-- Is this the final attach/switch step? -/
def Op.isAttachStep : Op → Bool
  | .switchClient .. => true
  | .attachClient .. => true
  | _ => false

/-- The outside world as the provisioning code observes it: whether the
`tmux` binary is installed, the result of `has-session`, the text printed
by `list-windows`, whether the caller already sits inside tmux (`TMUX`
environment variable), whether the working directory exists (`os.Stat`),
the resolved `lfg` binary path (`exec.LookPath`), and which issued
commands succeed. -/
structure TmuxEnv where
  installed : Bool
  sessionOn : Bool
  windowsOutput : String
  inTmux : Bool
  pathOk : Bool
  lfgPath : String
  ok : Op → Bool

/-- Raw message of a failed `exec.Cmd.Run`, as interpolated by `%w`. -/
def runErr : String := "exit status 1"

/-- `IsInstalled` (tmux.go): `exec.LookPath("tmux")` succeeds. -/
def IsInstalled (env : TmuxEnv) : Bool :=
  env.installed

/-- `SessionExists` (tmux.go): issue `has-session` and report its
success. -/
def SessionExists (env : TmuxEnv) (name : String) : List Op × Bool :=
  ([Op.hasSession name], env.sessionOn)

/-- `attachSession` (tmux.go): switch the client when already inside tmux,
otherwise attach, inheriting the standard streams. -/
def attachSession (env : TmuxEnv) (name : String) : List Op × Except String Unit :=
  if env.inTmux then
    ([Op.switchClient name], if env.ok (Op.switchClient name) then .ok () else .error runErr)
  else
    ([Op.attachClient name], if env.ok (Op.attachClient name) then .ok () else .error runErr)

/-! ## Pane-layout computation (`createPaneLayout`) -/

/-- The height-normalisation loop of `createPaneLayout`: parse each row's
height and substitute `100 / len(layout)` (Go integer division; both
operands non-negative) when parsing fails or yields a non-positive
value. -/
def effectiveHeights (layout : List LayoutRow) : List Int :=
  layout.map fun row =>
    let height := parsePercentage row.Height
    if height ≤ 0 then Int.tdiv 100 (layout.length : Int) else height

/-- The inner accumulation loop `for i := rowIdx; i < len; i++` summing the
remaining rows' heights, i.e. the sum of `heights[i..]`. -/
def sumFrom (heights : List Int) (i : Nat) : Int :=
  (heights.drop i).sum

/-- The body of the vertical pass of `createPaneLayout`, the loop
`for rowIdx := 1; rowIdx < len(layout); rowIdx++`.  To make the recursion
structural the loop state is carried as `prevHeight = heights[rowIdx-1]`
and `rest = heights[rowIdx..]`, so `remainingHeight` (the Go inner
summation loop) is `rest.sum`.  Each step splits pane `paneIndex` with
percentage `(remainingHeight * 100) / remainingPercent` (Go division
truncates toward zero, and panics when `remainingPercent` is `0` —
modelled as an explicit error result) and then decrements
`remainingPercent` by `heights[rowIdx-1]`. -/
def verticalLoop (env : TmuxEnv) (s w dir : String) (prevHeight : Int)
    (rest : List Int) (rowIdx paneIndex : Nat) (remainingPercent : Int) :
    List Op × Except String Unit :=
  match rest with
  | [] => ([], .ok ())
  | h :: t =>
    let remainingHeight := (h :: t).sum
    if remainingPercent = 0 then
      ([], .error "runtime error: integer divide by zero")
    else
      let splitPercent := Int.tdiv (remainingHeight * 100) remainingPercent
      let op := Op.splitV s w (some paneIndex) splitPercent dir
      if env.ok op then
        let restRes := verticalLoop env s w dir h t (rowIdx + 1) (paneIndex + 1)
          (remainingPercent - prevHeight)
        (op :: restRes.1, restRes.2)
      else
        ([op], .error ("failed to create row " ++ toString rowIdx ++ ": " ++ runErr))

/-- The vertical pass of `createPaneLayout`: the loop starts at
`rowIdx = 1`, `paneIndex = 2`, `remainingPercent = 100`, so the loop state
is `prevHeight = heights[0]`, `rest = heights[1..]`. -/
def verticalPass (env : TmuxEnv) (s w dir : String) (heights : List Int) :
    List Op × Except String Unit :=
  match heights with
  | [] => ([], .ok ())
  | h0 :: hrest => verticalLoop env s w dir h0 hrest 1 2 100

/-- The horizontal-split loop body of a multi-pane row: `for paneIdx := 1;
paneIdx < len(panes); paneIdx++`, always splitting the row's first pane
`rowStart` with percentage `(100 * (remainingPanes - 1)) / remainingPanes`
for `remainingPanes = paneCount - paneIdx + 1` (all operands
non-negative, so Go division is Nat division).  To make the recursion
structural, `steps` counts the iterations left, `paneCount - paneIdx`. -/
def hLoop (env : TmuxEnv) (s w dir : String) (rowStart paneCount rowIdx : Nat) :
    Nat → Nat → List Op × Except String Unit
  | _, 0 => ([], .ok ())
  | paneIdx, steps + 1 =>
    let remainingPanes := paneCount - paneIdx + 1
    let hSplitPercent : Nat := (100 * (remainingPanes - 1)) / remainingPanes
    let op := Op.splitH s w (some rowStart) (hSplitPercent : Int) dir
    if env.ok op then
      let restRes := hLoop env s w dir rowStart paneCount rowIdx (paneIdx + 1) steps
      (op :: restRes.1, restRes.2)
    else
      ([op], .error ("failed to create horizontal pane " ++ toString paneIdx ++
        " in row " ++ toString rowIdx ++ ": " ++ runErr))

/-- The horizontal-split loop of a multi-pane row: `paneIdx` runs from `1`
to `paneCount - 1`, i.e. `paneCount - 1` iterations. -/
def hSplits (env : TmuxEnv) (s w dir : String) (rowStart paneCount rowIdx : Nat) :
    List Op × Except String Unit :=
  hLoop env s w dir rowStart paneCount rowIdx 1 (paneCount - 1)

/-- The command loop after a multi-pane row's splits: send each configured
non-empty command to pane `rowStart + paneIdx`; failures are only
warnings, so no result is tracked. -/
def paneSendOps (s w : String) (rowStart : Nat) : List Pane → List Op
  | [] => []
  | pane :: rest =>
    (match pane.Command with
      | some c => if c ≠ "" then [Op.sendKeys s w rowStart c] else []
      | none => []) ++ paneSendOps s w (rowStart + 1) rest

/-- The second pass of `createPaneLayout` over rows: horizontal splits and
command injection, advancing `paneIndex` by the row's pane count (or by
one for single-pane rows). -/
def horizontalPass (env : TmuxEnv) (s w dir : String) :
    List LayoutRow → Nat → Nat → List Op × Except String Unit
  | [], _, _ => ([], .ok ())
  | row :: rest, rowIdx, paneIndex =>
    if 0 < row.Panes.length then
      match hSplits env s w dir paneIndex row.Panes.length rowIdx with
      | (ops, .error e) => (ops, .error e)
      | (ops, .ok _) =>
        let sends := paneSendOps s w paneIndex row.Panes
        let restRes := horizontalPass env s w dir rest (rowIdx + 1) (paneIndex + row.Panes.length)
        (ops ++ sends ++ restRes.1, restRes.2)
    else
      let sends : List Op :=
        match row.Command with
        | some c => if c ≠ "" then [Op.sendKeys s w paneIndex c] else []
        | none => []
      let restRes := horizontalPass env s w dir rest (rowIdx + 1) (paneIndex + 1)
      (sends ++ restRes.1, restRes.2)

/-- `setupDescriptionPane`: inject the `lfg --view` command into the given
pane. -/
def setupDescriptionPaneOp (env : TmuxEnv) (s w : String) (pane : Nat)
    (worktreeName : String) (cfg : Config) : Op :=
  Op.sendKeys s w pane
    (env.lfgPath ++ " --view --config " ++ cfg.GetConfigPath ++ " " ++ worktreeName)

/-- `setupAgentPane`: inject the `lfg --agent` command into the given
pane. -/
def setupAgentPaneOp (env : TmuxEnv) (s w : String) (pane : Nat)
    (worktreeName : String) (cfg : Config) : Op :=
  Op.sendKeys s w pane
    (env.lfgPath ++ " --agent --config " ++ cfg.GetConfigPath ++ " " ++ worktreeName)

/-- `createPaneLayout` (tmux.go): fixed 95% description split and 55%
agent split, then the vertical pass over the configured rows starting at
pane index 2, the horizontal pass with command injection, pane selection
(warning only) and the final attach.  Failures of the two fixed splits and
of the passes' splits abort with the transcribed error messages; failures
of `send-keys` and `select-pane` are warnings and do not affect the
result. -/
def createPaneLayout (env : TmuxEnv) (sessionName worktreeName dir : String)
    (cfg : Config) : List Op × Except String Unit :=
  let layout := cfg.GetLayout
  if layout.length = 0 then ([], .error "no layout defined in config")
  else
    let op1 := Op.splitV sessionName worktreeName none 95 dir
    if ¬ env.ok op1 then
      ([op1], .error ("failed to create description pane: " ++ runErr))
    else
      let op2 := setupDescriptionPaneOp env sessionName worktreeName 0 worktreeName cfg
      let op3 := Op.splitV sessionName worktreeName (some 1) 55 dir
      if ¬ env.ok op3 then
        ([op1, op2, op3], .error ("failed to create agent pane: " ++ runErr))
      else
        let op4 := setupAgentPaneOp env sessionName worktreeName 1 worktreeName cfg
        let heights := effectiveHeights layout
        let vert := verticalPass env sessionName worktreeName dir heights
        match vert.2 with
        | .error e => ([op1, op2, op3, op4] ++ vert.1, .error e)
        | .ok _ =>
          let horiz := horizontalPass env sessionName worktreeName dir layout 0 2
          match horiz.2 with
          | .error e => ([op1, op2, op3, op4] ++ vert.1 ++ horiz.1, .error e)
          | .ok _ =>
            let op5 := Op.selectPane sessionName worktreeName 1
            let att := attachSession env sessionName
            ([op1, op2, op3, op4] ++ vert.1 ++ horiz.1 ++ [op5] ++ att.1, att.2)

/-! ## Session provisioning entry points -/

/-- `createSession` (tmux.go): stat the path, create a detached session,
rename window 0 to the worktree name, enable mouse mode (warning only),
then build the pane layout. -/
def createSession (env : TmuxEnv) (sessionName worktreeName dir : String)
    (cfg : Config) : List Op × Except String Unit :=
  if ¬ env.pathOk then ([], .error ("path does not exist: " ++ dir))
  else
    let op1 := Op.newSession sessionName dir
    if ¬ env.ok op1 then ([op1], .error ("failed to create session: " ++ runErr))
    else
      let op2 := Op.renameWindow sessionName "0" worktreeName
      if ¬ env.ok op2 then
        ([op1, op2], .error ("failed to rename window: " ++ runErr))
      else
        let op3 := Op.setOption sessionName "mouse" "on"
        let rest := createPaneLayout env sessionName worktreeName dir cfg
        ([op1, op2, op3] ++ rest.1, rest.2)

/-- The window names reported by `list-windows`, after Go's
`strings.Split(strings.TrimSpace(output), "\n")`. -/
def windowLines (output : String) : List String :=
  (splitNL (goTrimSpace output).data).map String.mk

/-- `ensureWindows` (tmux.go): list the session's windows; when a window
named after the worktree exists, do nothing more; otherwise kill every
listed window (errors ignored), create a fresh worktree window and rebuild
the pane layout. -/
def ensureWindows (env : TmuxEnv) (sessionName worktreeName dir : String)
    (cfg : Config) : List Op × Except String Unit :=
  let listOp := Op.listWindows sessionName
  if ¬ env.ok listOp then ([listOp], .error ("failed to list windows: " ++ runErr))
  else
    let lines := windowLines env.windowsOutput
    let hasWorktreeWindow := lines.contains worktreeName
    if hasWorktreeWindow then ([listOp], .ok ())
    else
      let kills := (lines.filter (· ≠ "")).map (Op.killWindow sessionName)
      let newOp := Op.newWindow sessionName worktreeName dir
      if ¬ env.ok newOp then
        (listOp :: kills ++ [newOp], .error ("failed to create worktree window: " ++ runErr))
      else
        let rest := createPaneLayout env sessionName worktreeName dir cfg
        (listOp :: kills ++ [newOp] ++ rest.1, rest.2)

/-- `CreateOrAttachSession` (tmux.go): check installation, sanitize the
name, then either reconcile an existing session (warnings only) and
attach, or create a fresh one. -/
def CreateOrAttachSession (env : TmuxEnv) (name dir : String) (cfg : Config) :
    List Op × Except String Unit :=
  if ¬ IsInstalled env then ([], .error "tmux is not installed")
  else
    let sessionName := sanitizeSessionName name
    let check := SessionExists env sessionName
    if check.2 then
      let ensured := ensureWindows env sessionName name dir cfg
      let att := attachSession env sessionName
      (check.1 ++ ensured.1 ++ att.1, att.2)
    else
      let created := createSession env sessionName name dir cfg
      (check.1 ++ created.1, created.2)

/-- `KillSession` (tmux.go): killing an absent session is a no-op;
otherwise issue `kill-session` and return its result. -/
def KillSession (env : TmuxEnv) (name : String) : List Op × Except String Unit :=
  let check := SessionExists env name
  if ¬ check.2 then (check.1, .ok ())
  else
    let op := Op.killSession name
    (check.1 ++ [op], if env.ok op then .ok () else .error runErr)

/-! ## Auxiliary definitions used by the verification layer -/

/-- The percentage argument carried by a split operation. -/
def Op.percentOf : Op → Int
  | .splitV _ _ _ p _ => p
  | .splitH _ _ _ p _ => p
  | _ => 0

/-- Modelled from the spec: §8's reading of the vertical pass — the split
percentages, "when applied successively to the shrinking remainder",
reproduce the row proportions.  Splitting a pane of size `total` with
percentage `p` carves off a new pane of size `total * p / 100` (integer
division) and the size left behind is the current row, top to bottom. -/
def applySplitsSpec (total : Int) : List Int → List Int
  | [] => [total]
  | p :: ps =>
    let newPane := Int.tdiv (total * p) 100
    (total - newPane) :: applySplitsSpec newPane ps

/-- An environment in which every external command succeeds. -/
def allOkEnv : TmuxEnv :=
  { installed := true, sessionOn := false, windowsOutput := "", inTmux := false,
    pathOk := true, lfgPath := "lfg", ok := fun _ => true }

/-- An environment in which exactly the `send-keys` commands fail. -/
def failSendEnv : TmuxEnv :=
  { allOkEnv with ok := fun op => !op.isSendKeys }

/-- An environment in which exactly the vertical splits of the
user-configured rows (those targeting a pane index of `2` or more) fail;
the two fixed splits at panes `none` and `1` still succeed. -/
def failVRowEnv : TmuxEnv :=
  { allOkEnv with ok := fun op =>
      match op with
      | .splitV _ _ (some p) _ _ => decide (p < 2)
      | _ => true }

/-- An environment in which exactly the horizontal splits fail. -/
def failHEnv : TmuxEnv :=
  { allOkEnv with ok := fun op =>
      match op with
      | .splitH _ _ _ _ _ => false
      | _ => true }

/-- An environment for a session that already exists and already carries
the marker window `wt1` (next to another window). -/
def markerEnv : TmuxEnv :=
  { allOkEnv with sessionOn := true, windowsOutput := "wt1\nother" }

/-- A single-pane layout row with the given height string. -/
def demoRow (h : String) : LayoutRow :=
  { Height := h, Name := "", Command := none, Panes := [] }

/-- A legacy-format configuration: three windows, no modern layout. -/
def threeWinCfg : Config :=
  { Name := "demo", WorktreeNaming := "", Todos := [],
    Windows := [{ Name := "a", Command := none }, { Name := "b", Command := none },
      { Name := "c", Command := none }],
    Layout := [], configPath := "/c" }

/-- Heights `100%, 1%, 1%` — each row height lies in `(0, 100]`, yet the
vertical pass runs `remainingPercent` down to `0` with rows left. -/
def divZeroCfg : Config :=
  { Name := "demo", WorktreeNaming := "", Todos := [], Windows := [],
    Layout := [demoRow "100%", demoRow "1%", demoRow "1%"], configPath := "/c" }

/-- A single-pane row carrying a command, as in the spec's end-to-end
scenario. -/
def oneRowCmdRow : LayoutRow :=
  { Height := "100%", Name := "main", Command := some "npm start", Panes := [] }

/-- A single-row layout whose row carries a command, as in the spec's
end-to-end scenario. -/
def oneRowCfg : Config :=
  { Name := "demo", WorktreeNaming := "", Todos := [], Windows := [],
    Layout := [oneRowCmdRow], configPath := "/c" }

/-- A row holding two sub-panes. -/
def twoPaneRow : LayoutRow :=
  { Height := "100%", Name := "", Command := none,
    Panes := [{ Name := "left", Width := "", Command := none },
              { Name := "right", Width := "", Command := none }] }

/-- A layout with one row of two sub-panes. -/
def twoPaneCfg : Config :=
  { Name := "demo", WorktreeNaming := "", Todos := [], Windows := [],
    Layout := [twoPaneRow], configPath := "/c" }

/-- Default operation for `List.getD` indexing into traces. -/
def noOp : Op := Op.hasSession ""

/-- Default row for `List.getD` indexing into layouts. -/
def emptyRow : LayoutRow := { Height := "", Name := "", Command := none, Panes := [] }

/-! ## Basic characterisations -/

/-- The dot-replacement scan is the pointwise character map. -/
theorem replaceDotChars_eq_map (cs : List Char) :
    replaceDotChars cs = cs.map fun c => if c = '.' then '_' else c := by
  induction cs with
  | nil => rfl
  | cons c cs ih => simp [replaceDotChars, ih]

/-- Mapping the dot replacement over a dot-free character list is the
identity. -/
theorem map_dot_id (cs : List Char) (h : ∀ c ∈ cs, c ≠ '.') :
    (cs.map fun c => if c = '.' then '_' else c) = cs := by
  induction cs with
  | nil => rfl
  | cons c cs ih =>
    have hc : c ≠ '.' := h c (by simp)
    simp [hc, ih fun d hd => h d (by simp [hd])]

/-- The legacy-window conversion loop is a map. -/
theorem windowsToRows_eq_map (h : String) (ws : List TmuxWindow) :
    windowsToRows h ws = ws.map fun w =>
      { Height := h, Name := w.Name, Command := w.Command, Panes := ([] : List Pane) } := by
  induction ws with
  | nil => rfl
  | cons w ws ih => simp [windowsToRows, ih]

/-! ## Claim C8 -/

/-- C8: `SanitizeSessionName` is a pure function that replaces every dot by
an underscore and changes nothing else: it maps `"a.b.c"` to `"a_b_c"`,
`"no-dots"` to itself, acts as the pointwise dot-to-underscore map on the
characters of any string, and fixes every dot-free string. -/
theorem sanitizeSessionName_dots_only :
    SanitizeSessionName "a.b.c" = "a_b_c" ∧
    SanitizeSessionName "no-dots" = "no-dots" ∧
    (∀ s : String, (SanitizeSessionName s).data =
      s.data.map fun c => if c = '.' then '_' else c) ∧
    (∀ s : String, (∀ c ∈ s.data, c ≠ '.') → SanitizeSessionName s = s) := by
  refine ⟨by decide, by decide, fun s => ?_, fun s h => ?_⟩
  · simp [SanitizeSessionName, replaceDotChars_eq_map]
  · cases s with
    | mk data =>
      show String.mk (replaceDotChars data) = String.mk data
      rw [replaceDotChars_eq_map, map_dot_id data (by simpa using h)]

/-- Witness for C8 at the dot-free input `"lfg-main"`. -/
theorem sanitizeSessionName_dots_only_witness :
    (∀ c ∈ ("lfg-main" : String).data, c ≠ '.') ∧
    SanitizeSessionName "lfg-main" = "lfg-main" :=
  ⟨by decide, sanitizeSessionName_dots_only.2.2.2 "lfg-main" (by decide)⟩

/-! ## Claim C10 -/

/-- C10: killing an absent session is a no-op: when the session does not
exist, `KillSession` returns `nil` having issued only the `has-session`
probe and no kill operation; the `kill-session` command is issued exactly
when the session exists. -/
theorem killSession_absent_noop (env : TmuxEnv) (name : String) :
    (env.sessionOn = false →
      KillSession env name = ([Op.hasSession name], .ok ()) ∧
      ∀ op ∈ (KillSession env name).1, op.isKillSession = false) ∧
    (env.sessionOn = true → Op.killSession name ∈ (KillSession env name).1) := by
  constructor
  · intro h
    constructor
    · simp [KillSession, SessionExists, h]
    · simp [KillSession, SessionExists, h, Op.isKillSession]
  · intro h
    simp [KillSession, SessionExists, h]

/-- Witness for C10 with a concrete absent session. -/
theorem killSession_absent_noop_witness :
    allOkEnv.sessionOn = false ∧
    KillSession allOkEnv "sess" = ([Op.hasSession "sess"], .ok ()) :=
  ⟨rfl, ((killSession_absent_noop allOkEnv "sess").1 rfl).1⟩

/-! ## Claim C4 -/

/-- C4: `GetLayout` returns the modern layout unchanged whenever it is
non-empty; otherwise, a non-empty legacy window list yields one row per
window with height `100 / windowCount` percent, name and command copied
and no sub-panes; with both lists empty the result is empty.  Three
windows named `a`, `b`, `c` yield three rows of height `"33%"`. -/
theorem getLayout_resolution (cfg : Config) :
    (cfg.Layout ≠ [] → cfg.GetLayout = cfg.Layout) ∧
    (cfg.Layout = [] → cfg.Windows ≠ [] →
      cfg.GetLayout = cfg.Windows.map fun w =>
        { Height := toString (100 / cfg.Windows.length) ++ "%",
          Name := w.Name, Command := w.Command, Panes := ([] : List Pane) }) ∧
    (cfg.Layout = [] → cfg.Windows = [] → cfg.GetLayout = []) ∧
    threeWinCfg.GetLayout =
      [{ Height := "33%", Name := "a", Command := none, Panes := [] },
       { Height := "33%", Name := "b", Command := none, Panes := [] },
       { Height := "33%", Name := "c", Command := none, Panes := [] }] := by
  refine ⟨fun hL => ?_, fun hL hW => ?_, fun hL hW => ?_, by decide⟩
  · simp [Config.GetLayout, List.length_pos.mpr hL]
  · simp [Config.GetLayout, hL, List.length_pos.mpr hW, windowsToRows_eq_map]
  · simp [Config.GetLayout, hL, hW]

/-- Witness for C4 at the three-window legacy configuration. -/
theorem getLayout_resolution_witness :
    threeWinCfg.Layout = [] ∧ threeWinCfg.Windows ≠ [] ∧
    threeWinCfg.GetLayout = threeWinCfg.Windows.map fun w =>
      { Height := toString (100 / threeWinCfg.Windows.length) ++ "%",
        Name := w.Name, Command := w.Command, Panes := ([] : List Pane) } :=
  ⟨rfl, by decide, (getLayout_resolution threeWinCfg).2.1 rfl (by decide)⟩

/-! ## Claim C3 -/

/-- C3: height normalisation — a row whose height string is non-numeric
(`Atoi` fails, hence `parsePercentage` yields `0`) or parses to a value
`≤ 0` gets the effective height `100 / N` (integer division over the row
count `N`), while a positive parsed height is kept unchanged; concretely
`["", "40%", "bogus"]` with `N = 3` yields `[33, 40, 33]`. -/
theorem effectiveHeights_defaulting :
    (∀ s : String, goAtoi (goTrimSuffixPct (goTrimSpace s)) = none →
      parsePercentage s = 0) ∧
    (∀ (layout : List LayoutRow) (i : Nat), i < layout.length →
      (parsePercentage ((layout.getD i emptyRow).Height) ≤ 0 →
        (effectiveHeights layout).getD i 0 = Int.tdiv 100 (layout.length : Int)) ∧
      (0 < parsePercentage ((layout.getD i emptyRow).Height) →
        (effectiveHeights layout).getD i 0 =
          parsePercentage ((layout.getD i emptyRow).Height))) ∧
    effectiveHeights [demoRow "", demoRow "40%", demoRow "bogus"] = [33, 40, 33] := by
  refine ⟨fun s hA => ?_, fun layout i hi => ?_, by decide⟩
  · simp [parsePercentage, hA]
  · have hmem : i < (effectiveHeights layout).length := by
      simpa [effectiveHeights] using hi
    have key : (effectiveHeights layout).getD i 0 =
        (if parsePercentage ((layout.getD i emptyRow).Height) ≤ 0 then
          Int.tdiv 100 (layout.length : Int)
        else parsePercentage ((layout.getD i emptyRow).Height)) := by
      rw [List.getD_eq_getElem _ _ hmem, List.getD_eq_getElem _ _ hi]
      simp [effectiveHeights]
    constructor
    · intro h; rw [key, if_pos h]
    · intro h; rw [key, if_neg (by omega)]

/-- Witness for C3: row 0 of the concrete layout has an unparsable height
and receives the default `100 / 3 = 33`. -/
theorem effectiveHeights_defaulting_witness :
    (0 : Nat) < 3 ∧
    parsePercentage ((([demoRow "", demoRow "40%", demoRow "bogus"]).getD 0 emptyRow).Height) ≤ 0 ∧
    (effectiveHeights [demoRow "", demoRow "40%", demoRow "bogus"]).getD 0 0 =
      Int.tdiv 100 (([demoRow "", demoRow "40%", demoRow "bogus"] : List LayoutRow).length : Int) :=
  ⟨by decide, by decide,
    (effectiveHeights_defaulting.2.1 [demoRow "", demoRow "40%", demoRow "bogus"] 0
      (by decide)).1 (by decide)⟩

/-! ## Claim C9 -/

/-- C9: the vertical split-percentage computation is not total over height
lists whose entries all lie in `(0, 100]`: for the heights
`[100%, 1%, 1%]` the running `remainingPercent` reaches `0` with a row
left, and the division `(remainingHeight * 100) / remainingPercent`
divides by zero (a Go runtime panic, the error branch of the
embedding). -/
theorem verticalPass_divzero_reachable :
    (∀ h ∈ effectiveHeights divZeroCfg.GetLayout, 0 < h ∧ h ≤ 100) ∧
    (createPaneLayout allOkEnv "s" "w" "/d" divZeroCfg).2 =
      .error "runtime error: integer divide by zero" :=
  ⟨by decide, rfl⟩

/-! ## Claim C2 -/

/-- C2 counterexample: for a four-pane row the horizontal split-percentage
sequence issued by the code is not `[75, 67, 50]` (integer division gives
`200 / 3 = 66`, not `67`). -/
theorem hSplits_k4_not_67 :
    (hSplits allOkEnv "s" "w" "/d" 2 4 0).1.map Op.percentOf ≠ [75, 67, 50] := by
  decide

/-- Indexing characterisation of the horizontal-split loop under a
successful environment. -/
theorem hLoop_spec (env : TmuxEnv) (s w dir : String) (rowStart paneCount rowIdx : Nat)
    (hok : ∀ op, env.ok op = true) :
    ∀ (steps paneIdx : Nat),
      (hLoop env s w dir rowStart paneCount rowIdx paneIdx steps).2 = .ok () ∧
      (hLoop env s w dir rowStart paneCount rowIdx paneIdx steps).1.length = steps ∧
      ∀ i, i < steps →
        (hLoop env s w dir rowStart paneCount rowIdx paneIdx steps).1.getD i noOp =
          Op.splitH s w (some rowStart)
            (((100 * (paneCount - (paneIdx + i) + 1 - 1)) /
              (paneCount - (paneIdx + i) + 1) : Nat) : Int) dir := by
  intro steps
  induction steps with
  | zero =>
    intro paneIdx
    exact ⟨rfl, rfl, fun i hi => absurd hi (by omega)⟩
  | succ n ih =>
    intro paneIdx
    obtain ⟨h1, h2, h3⟩ := ih (paneIdx + 1)
    simp only [hLoop, hok, if_true]
    refine ⟨h1, by simp [h2], ?_⟩
    intro i hi
    cases i with
    | zero => simp
    | succ j =>
      have hj : j < n := by omega
      have := h3 j hj
      rw [show paneIdx + (j + 1) = paneIdx + 1 + j by omega]
      simpa using this

/-- C2 (amended): for every multi-pane row with `k ≥ 2` panes the
horizontal pass issues exactly `k-1` splits, each targeting the row's
first pane index `rowStart`, with split percentage
`100 * (remainingPanes - 1) / remainingPanes` for
`remainingPanes = k - j + 1` at sub-pane index `j`; for `k = 4` the
split-percentage sequence is `[75, 66, 50]` (integer division:
`200 / 3 = 66`). -/
theorem hSplits_equal_share (env : TmuxEnv) (s w dir : String)
    (rowStart rowIdx k : Nat) (hok : ∀ op, env.ok op = true) (hk : 2 ≤ k) :
    (hSplits env s w dir rowStart k rowIdx).2 = .ok () ∧
    (hSplits env s w dir rowStart k rowIdx).1.length = k - 1 ∧
    (∀ j, 1 ≤ j → j < k →
      (hSplits env s w dir rowStart k rowIdx).1.getD (j - 1) noOp =
        Op.splitH s w (some rowStart)
          (((100 * (k - j + 1 - 1)) / (k - j + 1) : Nat) : Int) dir) ∧
    (hSplits allOkEnv "s" "w" "/d" 2 4 0).1.map Op.percentOf = [75, 66, 50] := by
  obtain ⟨h1, h2, h3⟩ := hLoop_spec env s w dir rowStart k rowIdx hok (k - 1) 1
  simp only [hSplits]
  refine ⟨h1, h2, ?_, by decide⟩
  intro j hj1 hjk
  have := h3 (j - 1) (by omega)
  rw [show 1 + (j - 1) = j by omega] at this
  exact this

/-- Witness for C2's amended statement at `k = 4`. -/
theorem hSplits_equal_share_witness :
    (2 ≤ 4) ∧
    (hSplits allOkEnv "s" "w" "/d" 2 4 0).1.length = 3 ∧
    (hSplits allOkEnv "s" "w" "/d" 2 4 0).1.map Op.percentOf = [75, 66, 50] :=
  ⟨by decide,
    (hSplits_equal_share allOkEnv "s" "w" "/d" 2 0 4 (fun _ => rfl) (by decide)).2.1,
    (hSplits_equal_share allOkEnv "s" "w" "/d" 2 0 4 (fun _ => rfl) (by decide)).2.2.2⟩

/-! ## Claim C1 -/

/-- Indexing characterisation of the vertical-pass loop: starting from the
invariant `remainingPercent = prevHeight + rest.sum` (which holds at entry
when the heights sum to 100), every step succeeds and the `i`-th split
targets pane `paneIndex + i` with percentage
`(suffix-sum after i) * 100 / (suffix-sum from i)` over `prev :: rest`. -/
theorem verticalLoop_spec (env : TmuxEnv) (s w dir : String)
    (hok : ∀ op : Op, op.isVSplit = true → env.ok op = true) :
    ∀ (rest : List Int) (prev : Int) (rowIdx paneIndex : Nat),
      0 < prev → (∀ h ∈ rest, 0 < h) →
      (verticalLoop env s w dir prev rest rowIdx paneIndex (prev + rest.sum)).2 = .ok () ∧
      (verticalLoop env s w dir prev rest rowIdx paneIndex (prev + rest.sum)).1.length
        = rest.length ∧
      ∀ i, i < rest.length →
        (verticalLoop env s w dir prev rest rowIdx paneIndex (prev + rest.sum)).1.getD i noOp =
          Op.splitV s w (some (paneIndex + i))
            (Int.tdiv (((prev :: rest).drop (i + 1)).sum * 100)
              (((prev :: rest).drop i).sum)) dir := by
  intro rest
  induction rest with
  | nil =>
    intro prev rowIdx paneIndex hprev hpos
    exact ⟨rfl, rfl, fun i hi => by simp at hi⟩
  | cons h t ih =>
    intro prev rowIdx paneIndex hprev hpos
    have hh : 0 < h := hpos h (by simp)
    have htpos : ∀ x ∈ t, 0 < x := fun x hx => hpos x (by simp [hx])
    have htsum : 0 ≤ t.sum := List.sum_nonneg fun x hx => le_of_lt (htpos x hx)
    have hsumc : (h :: t).sum = h + t.sum := List.sum_cons
    have hrp : ¬ (prev + (h :: t).sum = 0) := by rw [hsumc]; omega
    have harg : prev + (h :: t).sum - prev = h + t.sum := by rw [hsumc]; ring
    have hokop : env.ok (Op.splitV s w (some paneIndex)
        (Int.tdiv ((h :: t).sum * 100) (prev + (h :: t).sum)) dir) = true :=
      hok _ rfl
    obtain ⟨ih1, ih2, ih3⟩ := ih h (rowIdx + 1) (paneIndex + 1) hh htpos
    simp only [verticalLoop, hrp, if_false, hokop, if_true, harg]
    refine ⟨ih1, by simp [ih2], ?_⟩
    intro i hi
    cases i with
    | zero => simp [List.sum_cons]
    | succ j =>
      have hj : j < t.length := by simpa using hi
      have := ih3 j hj
      rw [show paneIndex + (j + 1) = paneIndex + 1 + j by omega]
      simpa using this

/-- C1: for every height list `H` of positive integers summing to 100, the
vertical pass issues exactly `N-1` vertical splits, the `i`-th (0-based)
targeting pane `2 + i` with percentage
`(sum of heights after row i) * 100 / remainingPercent`, where
`remainingPercent = 100 - (sum of the first i heights)` realises the
claim's start-at-100, decrement-by-previous-height recurrence; for
`H = [50, 30, 20]` the two percentages are `[50, 40]` and applying them
successively to the shrinking remainder reproduces `[50, 30, 20]` exactly,
hence within ±1 percentage point per row. -/
theorem verticalPass_proportions (env : TmuxEnv) (s w dir : String) (H : List Int)
    (hok : ∀ op, env.ok op = true) (hne : H ≠ [])
    (hpos : ∀ h ∈ H, 0 < h) (hsum : H.sum = 100) :
    (verticalPass env s w dir H).2 = .ok () ∧
    (verticalPass env s w dir H).1.length = H.length - 1 ∧
    (∀ i, i < H.length - 1 →
      (verticalPass env s w dir H).1.getD i noOp =
        Op.splitV s w (some (2 + i))
          (Int.tdiv (sumFrom H (i + 1) * 100) (100 - (H.take i).sum)) dir) ∧
    (verticalPass allOkEnv "s" "wt" "/d" [50, 30, 20]).1.map Op.percentOf = [50, 40] ∧
    applySplitsSpec 100
      ((verticalPass allOkEnv "s" "wt" "/d" [50, 30, 20]).1.map Op.percentOf)
      = [50, 30, 20] ∧
    List.Forall₂ (fun r hgt => (r - hgt).natAbs ≤ 1)
      (applySplitsSpec 100
        ((verticalPass allOkEnv "s" "wt" "/d" [50, 30, 20]).1.map Op.percentOf))
      [50, 30, 20] := by
  match H, hne with
  | h0 :: hrest, _ =>
    have hprev : 0 < h0 := hpos h0 (by simp)
    have htpos : ∀ x ∈ hrest, 0 < x := fun x hx => hpos x (by simp [hx])
    have h100 : (100 : Int) = h0 + hrest.sum := by
      have := List.sum_cons (a := h0) (l := hrest)
      omega
    obtain ⟨l1, l2, l3⟩ :=
      verticalLoop_spec env s w dir (fun op _ => hok op) hrest h0 1 2 hprev htpos
    rw [← h100] at l1 l2 l3
    refine ⟨l1, by simpa using l2, ?_, by decide, by decide, by decide⟩
    intro i hi
    have hi' : i < hrest.length := by simpa using hi
    have hso := l3 i hi'
    have hds : ((h0 :: hrest).take i).sum + ((h0 :: hrest).drop i).sum
        = (h0 :: hrest).sum := by
      rw [← List.sum_append, List.take_append_drop]
    have hdrop : ((h0 :: hrest).drop i).sum = 100 - ((h0 :: hrest).take i).sum := by
      omega
    rw [show verticalPass env s w dir (h0 :: hrest)
        = verticalLoop env s w dir h0 hrest 1 2 100 from rfl]
    rw [hso, sumFrom, hdrop]

/-- Witness for C1 at `H = [50, 30, 20]`. -/
theorem verticalPass_proportions_witness :
    (([50, 30, 20] : List Int) ≠ [] ∧ (∀ h ∈ ([50, 30, 20] : List Int), 0 < h) ∧
      ([50, 30, 20] : List Int).sum = 100) ∧
    (verticalPass allOkEnv "s" "wt" "/d" [50, 30, 20]).2 = .ok () ∧
    (verticalPass allOkEnv "s" "wt" "/d" [50, 30, 20]).1.length = 2 :=
  ⟨⟨by decide, by decide, by decide⟩,
    (verticalPass_proportions allOkEnv "s" "wt" "/d" [50, 30, 20] (fun _ => rfl)
      (by decide) (by decide) (by decide)).1,
    (verticalPass_proportions allOkEnv "s" "wt" "/d" [50, 30, 20] (fun _ => rfl)
      (by decide) (by decide) (by decide)).2.1⟩

/-! ## Trace-shape lemmas for the layout passes -/

/-- Every operation issued by the vertical loop is a vertical split. -/
theorem verticalLoop_mem_vsplit (env : TmuxEnv) (s w dir : String) :
    ∀ (rest : List Int) (prev : Int) (rowIdx paneIndex : Nat) (rp : Int),
      ∀ op ∈ (verticalLoop env s w dir prev rest rowIdx paneIndex rp).1,
        op.isVSplit = true := by
  intro rest
  induction rest with
  | nil =>
    intro prev rowIdx paneIndex rp op hop
    simp [verticalLoop] at hop
  | cons h t ih =>
    intro prev rowIdx paneIndex rp op hop
    simp only [verticalLoop] at hop
    by_cases hz : rp = 0
    · rw [if_pos hz] at hop
      simp at hop
    · rw [if_neg hz] at hop
      by_cases hk : env.ok (Op.splitV s w (some paneIndex)
          (Int.tdiv ((h :: t).sum * 100) rp) dir) = true
      · rw [if_pos hk] at hop
        rcases List.mem_cons.mp hop with rfl | hmem
        · rfl
        · exact ih h (rowIdx + 1) (paneIndex + 1) (rp - prev) op hmem
      · rw [if_neg hk] at hop
        have he := List.mem_singleton.mp hop
        subst he; rfl

/-- When the vertical loop reports success, every operation it issued
succeeded. -/
theorem verticalLoop_splits_ok (env : TmuxEnv) (s w dir : String) :
    ∀ (rest : List Int) (prev : Int) (rowIdx paneIndex : Nat) (rp : Int),
      (verticalLoop env s w dir prev rest rowIdx paneIndex rp).2 = .ok () →
      ∀ op ∈ (verticalLoop env s w dir prev rest rowIdx paneIndex rp).1,
        env.ok op = true := by
  intro rest
  induction rest with
  | nil =>
    intro prev rowIdx paneIndex rp _ op hop
    simp [verticalLoop] at hop
  | cons h t ih =>
    intro prev rowIdx paneIndex rp hres op hop
    simp only [verticalLoop] at hop hres
    by_cases hz : rp = 0
    · rw [if_pos hz] at hop
      simp at hop
    · rw [if_neg hz] at hop hres
      by_cases hk : env.ok (Op.splitV s w (some paneIndex)
          (Int.tdiv ((h :: t).sum * 100) rp) dir) = true
      · rw [if_pos hk] at hop hres
        rcases List.mem_cons.mp hop with rfl | hmem
        · exact hk
        · exact ih h (rowIdx + 1) (paneIndex + 1) (rp - prev) hres op hmem
      · rw [if_neg hk] at hres
        exact absurd hres (by simp)

/-- Every operation issued by the horizontal-split loop is a horizontal
split (in particular not a vertical one). -/
theorem hLoop_mem_splitH (env : TmuxEnv) (s w dir : String)
    (rowStart paneCount rowIdx : Nat) :
    ∀ (steps paneIdx : Nat),
      ∀ op ∈ (hLoop env s w dir rowStart paneCount rowIdx paneIdx steps).1,
        op.isVSplit = false ∧ op.isSplit = true := by
  intro steps
  induction steps with
  | zero =>
    intro paneIdx op hop
    simp [hLoop] at hop
  | succ n ih =>
    intro paneIdx op hop
    simp only [hLoop] at hop
    by_cases hk : env.ok (Op.splitH s w (some rowStart)
        (((100 * (paneCount - paneIdx + 1 - 1)) / (paneCount - paneIdx + 1) : Nat) : Int)
          dir) = true
    · rw [if_pos hk] at hop
      rcases List.mem_cons.mp hop with rfl | hmem
      · exact ⟨rfl, rfl⟩
      · exact ih (paneIdx + 1) op hmem
    · rw [if_neg hk] at hop
      have he := List.mem_singleton.mp hop
      subst he; exact ⟨rfl, rfl⟩

/-- When the horizontal-split loop reports success, every operation it
issued succeeded. -/
theorem hLoop_splits_ok (env : TmuxEnv) (s w dir : String)
    (rowStart paneCount rowIdx : Nat) :
    ∀ (steps paneIdx : Nat),
      (hLoop env s w dir rowStart paneCount rowIdx paneIdx steps).2 = .ok () →
      ∀ op ∈ (hLoop env s w dir rowStart paneCount rowIdx paneIdx steps).1,
        env.ok op = true := by
  intro steps
  induction steps with
  | zero =>
    intro paneIdx _ op hop
    simp [hLoop] at hop
  | succ n ih =>
    intro paneIdx hres op hop
    simp only [hLoop] at hop hres
    by_cases hk : env.ok (Op.splitH s w (some rowStart)
        (((100 * (paneCount - paneIdx + 1 - 1)) / (paneCount - paneIdx + 1) : Nat) : Int)
          dir) = true
    · rw [if_pos hk] at hop hres
      rcases List.mem_cons.mp hop with rfl | hmem
      · exact hk
      · exact ih (paneIdx + 1) hres op hmem
    · rw [if_neg hk] at hres
      exact absurd hres (by simp)

/-- The horizontal-split loop succeeds whenever splits succeed. -/
theorem hLoop_ok (env : TmuxEnv) (s w dir : String) (rowStart paneCount rowIdx : Nat)
    (hok : ∀ op : Op, op.isSplit = true → env.ok op = true) :
    ∀ (steps paneIdx : Nat),
      (hLoop env s w dir rowStart paneCount rowIdx paneIdx steps).2 = .ok () := by
  intro steps
  induction steps with
  | zero => intro paneIdx; rfl
  | succ n ih =>
    intro paneIdx
    have hk : env.ok (Op.splitH s w (some rowStart)
        (((100 * (paneCount - paneIdx + 1 - 1)) / (paneCount - paneIdx + 1) : Nat) : Int)
          dir) = true := hok _ rfl
    simp only [hLoop]
    rw [if_pos hk]
    exact ih (paneIdx + 1)

/-- Every operation issued by the per-row command loop is `send-keys`. -/
theorem paneSendOps_mem (s w : String) :
    ∀ (ps : List Pane) (rowStart : Nat),
      ∀ op ∈ paneSendOps s w rowStart ps, op.isSendKeys = true := by
  intro ps
  induction ps with
  | nil =>
    intro rowStart op hop
    simp [paneSendOps] at hop
  | cons p rest ih =>
    intro rowStart op hop
    simp only [paneSendOps, List.mem_append] at hop
    rcases hop with hop | hop
    · rcases hc : p.Command with _ | c
      · simp [hc] at hop
      · rw [hc] at hop
        by_cases he : c = ""
        · simp [he] at hop
        · simp [he] at hop
          subst hop; rfl
    · exact ih (rowStart + 1) op hop

/-- A `send-keys` operation is not a split. -/
theorem sendKeys_not_split (op : Op) (h : op.isSendKeys = true) :
    op.isSplit = false ∧ op.isVSplit = false := by
  cases op <;> simp_all [Op.isSendKeys, Op.isSplit, Op.isVSplit]

/-- The horizontal pass succeeds whenever splits succeed (send-keys
failures are only warnings). -/
theorem horizontalPass_ok (env : TmuxEnv) (s w dir : String)
    (hok : ∀ op : Op, op.isSplit = true → env.ok op = true) :
    ∀ (rows : List LayoutRow) (rowIdx paneIndex : Nat),
      (horizontalPass env s w dir rows rowIdx paneIndex).2 = .ok () := by
  intro rows
  induction rows with
  | nil => intro rowIdx paneIndex; rfl
  | cons row rest ih =>
    intro rowIdx paneIndex
    by_cases hp : 0 < row.Panes.length
    · have hh2 : (hSplits env s w dir paneIndex row.Panes.length rowIdx).2 = .ok () := by
        simp only [hSplits]
        exact hLoop_ok env s w dir paneIndex row.Panes.length rowIdx hok _ _
      rcases hhs : hSplits env s w dir paneIndex row.Panes.length rowIdx with ⟨ops, res⟩
      rw [hhs] at hh2
      simp only at hh2
      subst hh2
      simp [horizontalPass, hp, hhs, ih]
    · simp [horizontalPass, hp, ih]

/-- When the horizontal pass reports success, every split operation it
issued succeeded. -/
theorem horizontalPass_splits_ok (env : TmuxEnv) (s w dir : String) :
    ∀ (rows : List LayoutRow) (rowIdx paneIndex : Nat),
      (horizontalPass env s w dir rows rowIdx paneIndex).2 = .ok () →
      ∀ op ∈ (horizontalPass env s w dir rows rowIdx paneIndex).1,
        op.isSplit = true → env.ok op = true := by
  intro rows
  induction rows with
  | nil =>
    intro rowIdx paneIndex _ op hop
    simp [horizontalPass] at hop
  | cons row rest ih =>
    intro rowIdx paneIndex hres op hop hsp
    by_cases hp : 0 < row.Panes.length
    · rcases hhs : hSplits env s w dir paneIndex row.Panes.length rowIdx with ⟨ops, res⟩
      cases res with
      | error e =>
        rw [horizontalPass] at hres
        rw [if_pos hp, hhs] at hres
        exact absurd hres (by simp)
      | ok u =>
        cases u
        rw [horizontalPass] at hres hop
        rw [if_pos hp, hhs] at hres hop
        simp only [List.mem_append] at hop
        rcases hop with (hop | hop) | hop
        · have hlo : (hLoop env s w dir paneIndex row.Panes.length rowIdx 1
              (row.Panes.length - 1)).2 = .ok () := by
            have : (hSplits env s w dir paneIndex row.Panes.length rowIdx).2 = .ok () := by
              rw [hhs]
            simpa [hSplits] using this
          have hops : op ∈ (hLoop env s w dir paneIndex row.Panes.length rowIdx 1
              (row.Panes.length - 1)).1 := by
            have : ops = (hLoop env s w dir paneIndex row.Panes.length rowIdx 1
                (row.Panes.length - 1)).1 := by
              have := congrArg Prod.fst hhs
              simpa [hSplits] using this.symm
            rwa [this] at hop
          exact hLoop_splits_ok env s w dir paneIndex row.Panes.length rowIdx _ _ hlo op hops
        · have := paneSendOps_mem s w row.Panes paneIndex op hop
          exact absurd hsp (by simp [(sendKeys_not_split op this).1])
        · exact ih (rowIdx + 1) (paneIndex + row.Panes.length) hres op hop hsp
    · rw [horizontalPass] at hres hop
      rw [if_neg hp] at hres hop
      simp only [List.mem_append] at hop
      rcases hop with hop | hop
      · rcases hc : row.Command with _ | c
        · rw [hc] at hop; simp at hop
        · rw [hc] at hop
          by_cases he : c = ""
          · simp [he] at hop
          · simp [he] at hop
            subst hop
            exact absurd hsp (by simp [Op.isSplit])
      · exact ih (rowIdx + 1) (paneIndex + 1) hres op hop hsp

/-- No operation issued by the horizontal pass is a vertical split. -/
theorem horizontalPass_no_vsplit (env : TmuxEnv) (s w dir : String) :
    ∀ (rows : List LayoutRow) (rowIdx paneIndex : Nat),
      ∀ op ∈ (horizontalPass env s w dir rows rowIdx paneIndex).1,
        op.isVSplit = false := by
  intro rows
  induction rows with
  | nil =>
    intro rowIdx paneIndex op hop
    simp [horizontalPass] at hop
  | cons row rest ih =>
    intro rowIdx paneIndex op hop
    by_cases hp : 0 < row.Panes.length
    · rcases hhs : hSplits env s w dir paneIndex row.Panes.length rowIdx with ⟨ops, res⟩
      have hops : ops = (hLoop env s w dir paneIndex row.Panes.length rowIdx 1
          (row.Panes.length - 1)).1 := by
        have := congrArg Prod.fst hhs
        simpa [hSplits] using this.symm
      cases res with
      | error e =>
        rw [horizontalPass] at hop
        rw [if_pos hp, hhs] at hop
        simp only at hop
        rw [hops] at hop
        exact (hLoop_mem_splitH env s w dir paneIndex row.Panes.length rowIdx _ _ op hop).1
      | ok u =>
        cases u
        rw [horizontalPass] at hop
        rw [if_pos hp, hhs] at hop
        simp only [List.mem_append] at hop
        rcases hop with (hop | hop) | hop
        · rw [hops] at hop
          exact (hLoop_mem_splitH env s w dir paneIndex row.Panes.length rowIdx _ _ op hop).1
        · have := paneSendOps_mem s w row.Panes paneIndex op hop
          exact (sendKeys_not_split op this).2
        · exact ih (rowIdx + 1) (paneIndex + row.Panes.length) op hop
    · rw [horizontalPass] at hop
      rw [if_neg hp] at hop
      simp only [List.mem_append] at hop
      rcases hop with hop | hop
      · rcases hc : row.Command with _ | c
        · rw [hc] at hop; simp at hop
        · rw [hc] at hop
          by_cases he : c = ""
          · simp [he] at hop
          · simp [he] at hop
            subst hop; rfl
      · exact ih (rowIdx + 1) (paneIndex + 1) op hop

/-- Vertical-pass wrapper versions of the loop lemmas. -/
theorem verticalPass_mem_vsplit (env : TmuxEnv) (s w dir : String) (H : List Int) :
    ∀ op ∈ (verticalPass env s w dir H).1, op.isVSplit = true := by
  match H with
  | [] => intro op hop; simp [verticalPass] at hop
  | h0 :: hrest =>
    intro op hop
    exact verticalLoop_mem_vsplit env s w dir hrest h0 1 2 100 op hop

/-- When the vertical pass reports success, every operation it issued
succeeded. -/
theorem verticalPass_splits_ok (env : TmuxEnv) (s w dir : String) (H : List Int)
    (hres : (verticalPass env s w dir H).2 = .ok ()) :
    ∀ op ∈ (verticalPass env s w dir H).1, env.ok op = true := by
  match H with
  | [] => intro op hop; simp [verticalPass] at hop
  | h0 :: hrest =>
    intro op hop
    exact verticalLoop_splits_ok env s w dir hrest h0 1 2 100 hres op hop

/-- The vertical pass succeeds for positive heights summing to 100. -/
theorem verticalPass_ok_of_sum (env : TmuxEnv) (s w dir : String) (H : List Int)
    (hok : ∀ op : Op, op.isVSplit = true → env.ok op = true)
    (hpos : ∀ h ∈ H, 0 < h) (hsum : H.sum = 100) :
    (verticalPass env s w dir H).2 = .ok () := by
  match H with
  | [] => rfl
  | h0 :: hrest =>
    have hprev : 0 < h0 := hpos h0 (by simp)
    have htpos : ∀ x ∈ hrest, 0 < x := fun x hx => hpos x (by simp [hx])
    have h100 : (100 : Int) = h0 + hrest.sum := by
      have := List.sum_cons (a := h0) (l := hrest)
      omega
    obtain ⟨l1, -, -⟩ := verticalLoop_spec env s w dir hok hrest h0 1 2 hprev htpos
    rw [← h100] at l1
    exact l1

/-- The attach step issues exactly one switch/attach operation, which is
neither a split nor structural. -/
theorem attachSession_mem (env : TmuxEnv) (name : String) :
    ∀ op ∈ (attachSession env name).1,
      op.isSplit = false ∧ op.isVSplit = false ∧ op.isStructural = false ∧
        op.isAttachStep = true := by
  by_cases ht : env.inTmux
  · intro op hop
    simp [attachSession, ht] at hop
    subst hop
    exact ⟨rfl, rfl, rfl, rfl⟩
  · intro op hop
    simp [attachSession, ht] at hop
    subst hop
    exact ⟨rfl, rfl, rfl, rfl⟩

/-- The attach step succeeds when non-`send-keys` commands succeed. -/
theorem attachSession_ok (env : TmuxEnv) (name : String)
    (hok : ∀ op : Op, op.isSendKeys = false → env.ok op = true) :
    (attachSession env name).2 = .ok () := by
  by_cases ht : env.inTmux
  · simp [attachSession, ht, hok (Op.switchClient name) rfl]
  · simp [attachSession, ht, hok (Op.attachClient name) rfl]

/-- The attach step always appears in its own trace. -/
theorem attachSession_exists_step (env : TmuxEnv) (name : String) :
    ∃ op ∈ (attachSession env name).1, op.isAttachStep = true := by
  by_cases ht : env.inTmux
  · exact ⟨Op.switchClient name, by simp [attachSession, ht], rfl⟩
  · exact ⟨Op.attachClient name, by simp [attachSession, ht], rfl⟩

/-- The vertical splits of a `createPaneLayout` trace are exactly the two
fixed prelude splits followed by the vertical pass, whenever the two fixed
splits succeed. -/
theorem createPaneLayout_filter_vsplit (env : TmuxEnv) (s w dir : String) (cfg : Config)
    (hne : ¬ cfg.GetLayout.length = 0)
    (h1 : env.ok (Op.splitV s w none 95 dir) = true)
    (h3 : env.ok (Op.splitV s w (some 1) 55 dir) = true) :
    (createPaneLayout env s w dir cfg).1.filter Op.isVSplit =
      Op.splitV s w none 95 dir :: Op.splitV s w (some 1) 55 dir ::
        (verticalPass env s w dir (effectiveHeights cfg.GetLayout)).1 := by
  have hvert : (verticalPass env s w dir (effectiveHeights cfg.GetLayout)).1.filter
      Op.isVSplit = (verticalPass env s w dir (effectiveHeights cfg.GetLayout)).1 :=
    List.filter_eq_self.mpr (verticalPass_mem_vsplit env s w dir _)
  have hhor : ∀ rowIdx paneIndex,
      (horizontalPass env s w dir cfg.GetLayout rowIdx paneIndex).1.filter
        Op.isVSplit = [] :=
    fun rowIdx paneIndex => List.filter_eq_nil_iff.mpr
      (fun op hop => by
        simp [horizontalPass_no_vsplit env s w dir cfg.GetLayout rowIdx paneIndex op hop])
  have hatt : (attachSession env s).1.filter Op.isVSplit = [] :=
    List.filter_eq_nil_iff.mpr
      (fun op hop => by simp [(attachSession_mem env s op hop).2.1])
  simp only [createPaneLayout]
  rw [if_neg hne, if_neg (not_not_intro h1), if_neg (not_not_intro h3)]
  cases hv : (verticalPass env s w dir (effectiveHeights cfg.GetLayout)).2 with
  | error e =>
    simp only [hv]
    simp [List.filter_append, hvert, setupDescriptionPaneOp, setupAgentPaneOp,
      Op.isVSplit]
  | ok u =>
    cases u
    simp only [hv]
    cases hh : (horizontalPass env s w dir cfg.GetLayout 0 2).2 with
    | error e =>
      simp only [hh]
      simp [List.filter_append, hvert, hhor, setupDescriptionPaneOp,
        setupAgentPaneOp, Op.isVSplit]
    | ok u =>
      cases u
      simp only [hh]
      simp [List.filter_append, hvert, hhor, hatt, setupDescriptionPaneOp,
        setupAgentPaneOp, Op.isVSplit]

/-! ## Claim C6 -/

/-- C6: for every non-empty layout the first two split operations of
`createPaneLayout` are fixed and layout-independent — a vertical split of
the window at 95% (status pane) and a vertical split of pane 1 at 55%
(agent pane) — so user rows start at pane index 2: a single-row layout
issues no further vertical splits and its row command is injected into
pane 2, while a multi-row layout's next vertical split targets pane 2. -/
theorem createPaneLayout_fixed_prelude (env : TmuxEnv) (s w dir : String) (cfg : Config)
    (hok : ∀ op, env.ok op = true) (hne : cfg.GetLayout ≠ []) :
    (((createPaneLayout env s w dir cfg).1.filter Op.isVSplit).take 2 =
      [Op.splitV s w none 95 dir, Op.splitV s w (some 1) 55 dir]) ∧
    (cfg.GetLayout.length = 1 →
      (createPaneLayout env s w dir cfg).1.filter Op.isVSplit =
        [Op.splitV s w none 95 dir, Op.splitV s w (some 1) 55 dir]) ∧
    (2 ≤ cfg.GetLayout.length → ∃ pct,
      ((createPaneLayout env s w dir cfg).1.filter Op.isVSplit).getD 2 noOp =
        Op.splitV s w (some 2) pct dir) ∧
    (∀ (row : LayoutRow) (c : String), cfg.GetLayout = [row] → row.Panes = [] →
      row.Command = some c → c ≠ "" →
      Op.sendKeys s w 2 c ∈ (createPaneLayout env s w dir cfg).1) := by
  have hne' : ¬ cfg.GetLayout.length = 0 := by
    simpa [List.length_eq_zero] using hne
  have hfil := createPaneLayout_filter_vsplit env s w dir cfg hne' (hok _) (hok _)
  refine ⟨by rw [hfil]; rfl, ?_, ?_, ?_⟩
  · intro h1len
    rw [hfil]
    rcases hJ : cfg.GetLayout with _ | ⟨r, rest⟩
    · exact absurd hJ hne
    · have : rest = [] := by
        rw [hJ] at h1len
        simpa using h1len
      subst this
      simp [hJ, effectiveHeights, verticalPass, verticalLoop]
  · intro h2len
    rcases hJ : cfg.GetLayout with _ | ⟨r1, rest⟩
    · exact absurd hJ hne
    · rcases rest with _ | ⟨r2, rest2⟩
      · rw [hJ] at h2len; simp at h2len
      · rw [hfil, hJ]
        refine ⟨Int.tdiv ((effectiveHeights (r1 :: r2 :: rest2)).tail.sum * 100) 100, ?_⟩
        have hok2 : env.ok (Op.splitV s w (some 2)
            (Int.tdiv ((effectiveHeights (r1 :: r2 :: rest2)).tail.sum * 100) 100)
              dir) = true := hok _
        simp only [effectiveHeights, List.map_cons, verticalPass, verticalLoop,
          List.getD_cons_succ, List.getD_cons_zero]
        rw [if_neg (by decide : ¬ ((100 : Int) = 0))]
        rw [if_pos ?_]
        · simp
        · simpa [effectiveHeights] using hok2
  · intro row c hJ hpanes hcmd hcne
    simp only [createPaneLayout, hJ]
    rw [if_neg (by simp), if_neg (not_not_intro (hok _)), if_neg (not_not_intro (hok _))]
    have hv : (verticalPass env s w dir (effectiveHeights [row])).2 = .ok () := by
      simp [effectiveHeights, verticalPass, verticalLoop]
    have hv1 : (verticalPass env s w dir (effectiveHeights [row])).1 = [] := by
      simp [effectiveHeights, verticalPass, verticalLoop]
    have hhor : horizontalPass env s w dir [row] 0 2 =
        ([Op.sendKeys s w 2 c], .ok ()) := by
      simp [horizontalPass, hpanes, hcmd, hcne]
    simp only [hv, hhor]
    simp [hv1, hhor]

/-- Witness for C6 at the single-row configuration. -/
theorem createPaneLayout_fixed_prelude_witness :
    oneRowCfg.GetLayout ≠ [] ∧ oneRowCfg.GetLayout.length = 1 ∧
    (createPaneLayout allOkEnv "s" "w" "/d" oneRowCfg).1.filter Op.isVSplit =
      [Op.splitV "s" "w" none 95 "/d", Op.splitV "s" "w" (some 1) 55 "/d"] :=
  ⟨by decide, by decide,
    (createPaneLayout_fixed_prelude allOkEnv "s" "w" "/d" oneRowCfg (fun _ => rfl)
      (by decide)).2.1 (by decide)⟩

/-- A split operation is not `send-keys`. -/
theorem split_not_sendKeys (op : Op) (h : op.isSplit = true) :
    op.isSendKeys = false := by
  cases op <;> simp_all [Op.isSplit, Op.isSendKeys]

/-- A vertical split is a split. -/
theorem vsplit_isSplit (op : Op) (h : op.isVSplit = true) : op.isSplit = true := by
  cases op <;> simp_all [Op.isVSplit, Op.isSplit]

/-- Abort semantics at the `createPaneLayout` level: a successful result
means every split operation in the trace succeeded (a failed split would
have aborted the run). -/
theorem createPaneLayout_splits_ok (env : TmuxEnv) (s w dir : String) (cfg : Config)
    (hres : (createPaneLayout env s w dir cfg).2 = .ok ()) :
    ∀ op ∈ (createPaneLayout env s w dir cfg).1, op.isSplit = true →
      env.ok op = true := by
  intro op hop hsp
  simp only [createPaneLayout] at hres hop
  by_cases hL : cfg.GetLayout.length = 0
  · rw [if_pos hL] at hres
    exact absurd hres (by simp)
  · rw [if_neg hL] at hres hop
    by_cases h1 : env.ok (Op.splitV s w none 95 dir) = true
    · rw [if_neg (not_not_intro h1)] at hres hop
      by_cases h3 : env.ok (Op.splitV s w (some 1) 55 dir) = true
      · rw [if_neg (not_not_intro h3)] at hres hop
        cases hv : (verticalPass env s w dir (effectiveHeights cfg.GetLayout)).2 with
        | error e =>
          simp only [hv] at hres
          exact absurd hres (by simp)
        | ok u =>
          cases u
          simp only [hv] at hres hop
          cases hh : (horizontalPass env s w dir cfg.GetLayout 0 2).2 with
          | error e =>
            simp only [hh] at hres
            exact absurd hres (by simp)
          | ok u =>
            cases u
            simp only [hh] at hres hop
            simp only [List.mem_append, List.mem_cons, List.mem_singleton,
              List.not_mem_nil, or_false, false_or] at hop
            rcases hop with ((((rfl | rfl | rfl | rfl) | hvm) | hhm) | rfl) | ham
            · exact h1
            · exact absurd hsp (by simp [setupDescriptionPaneOp, Op.isSplit])
            · exact h3
            · exact absurd hsp (by simp [setupAgentPaneOp, Op.isSplit])
            · exact verticalPass_splits_ok env s w dir _ hv op hvm
            · exact horizontalPass_splits_ok env s w dir cfg.GetLayout 0 2 hh op hhm hsp
            · exact absurd hsp (by simp [Op.isSplit])
            · exact absurd hsp (by simp [(attachSession_mem env s op ham).1])
      · rw [if_pos h3] at hres
        exact absurd hres (by simp)
    · rw [if_pos h1] at hres
      exact absurd hres (by simp)

/-! ## Claim C7 -/

/-- C7: failure severities are split by operation kind — a run in which
every `send-keys` (command-injection) operation fails but all other
commands succeed still returns success and reaches the attach step;
conversely a successful run means every split in the trace succeeded (a
split failure aborts); and a failed structural split aborts with an error
naming the row (`failed to create row 1`) or the pane
(`failed to create horizontal pane 1 in row 0`). -/
theorem createPaneLayout_error_severities (env : TmuxEnv) (s w dir : String)
    (cfg : Config) (hne : cfg.GetLayout ≠ [])
    (hpos : ∀ h ∈ effectiveHeights cfg.GetLayout, 0 < h)
    (hsum : (effectiveHeights cfg.GetLayout).sum = 100)
    (hok : ∀ op : Op, op.isSendKeys = false → env.ok op = true) :
    (createPaneLayout env s w dir cfg).2 = .ok () ∧
    (∃ op ∈ (createPaneLayout env s w dir cfg).1, op.isAttachStep = true) ∧
    (∀ env2 : TmuxEnv, (createPaneLayout env2 s w dir cfg).2 = .ok () →
      ∀ op ∈ (createPaneLayout env2 s w dir cfg).1, op.isSplit = true →
        env2.ok op = true) ∧
    (2 ≤ cfg.GetLayout.length →
      (createPaneLayout failVRowEnv s w dir cfg).2 =
        .error ("failed to create row 1: " ++ runErr)) ∧
    (createPaneLayout failHEnv "s" "w" "/d" twoPaneCfg).2 =
      .error ("failed to create horizontal pane 1 in row 0: " ++ runErr) := by
  have hne' : ¬ cfg.GetLayout.length = 0 := by
    simpa [List.length_eq_zero] using hne
  have h1 : env.ok (Op.splitV s w none 95 dir) = true := hok _ rfl
  have h3 : env.ok (Op.splitV s w (some 1) 55 dir) = true := hok _ rfl
  have hv : (verticalPass env s w dir (effectiveHeights cfg.GetLayout)).2 = .ok () :=
    verticalPass_ok_of_sum env s w dir _
      (fun op hvs => hok op (split_not_sendKeys op (vsplit_isSplit op hvs))) hpos hsum
  have hh : (horizontalPass env s w dir cfg.GetLayout 0 2).2 = .ok () :=
    horizontalPass_ok env s w dir (fun op hs => hok op (split_not_sendKeys op hs))
      cfg.GetLayout 0 2
  refine ⟨?_, ?_, fun env2 h => createPaneLayout_splits_ok env2 s w dir cfg h, ?_, rfl⟩
  · simp only [createPaneLayout]
    rw [if_neg hne', if_neg (not_not_intro h1), if_neg (not_not_intro h3)]
    simp only [hv, hh]
    exact attachSession_ok env s hok
  · obtain ⟨op, hmem, hstep⟩ := attachSession_exists_step env s
    refine ⟨op, ?_, hstep⟩
    simp only [createPaneLayout]
    rw [if_neg hne', if_neg (not_not_intro h1), if_neg (not_not_intro h3)]
    simp only [hv, hh]
    simp [hmem]
  · intro h2
    rcases hJ : cfg.GetLayout with _ | ⟨r1, rest⟩
    · exact absurd hJ hne
    · rcases rest with _ | ⟨r2, rest2⟩
      · rw [hJ] at h2; simp at h2
      · have hv2 : (verticalPass failVRowEnv s w dir
            (effectiveHeights (r1 :: r2 :: rest2))).2 =
            .error ("failed to create row 1: " ++ runErr) := by
          simp only [effectiveHeights, List.map_cons, verticalPass, verticalLoop]
          rw [if_neg (by decide : ¬ ((100 : Int) = 0))]
          rw [if_neg ?_]
          · exact congrArg Except.error (by decide)
          · simp [failVRowEnv, allOkEnv]
        simp only [createPaneLayout, hJ]
        rw [if_neg (by simp)]
        rw [if_neg (not_not_intro (by rfl))]
        rw [if_neg (not_not_intro (by rfl))]
        simp only [hv2]

/-- Witness for C7: with every `send-keys` failing, provisioning of the
single-row layout still succeeds. -/
theorem createPaneLayout_error_severities_witness :
    oneRowCfg.GetLayout ≠ [] ∧
    (∀ h ∈ effectiveHeights oneRowCfg.GetLayout, 0 < h) ∧
    (effectiveHeights oneRowCfg.GetLayout).sum = 100 ∧
    (createPaneLayout failSendEnv "s" "w" "/d" oneRowCfg).2 = .ok () :=
  ⟨by decide, by decide, by decide,
    (createPaneLayout_error_severities failSendEnv "s" "w" "/d" oneRowCfg (by decide)
      (by decide) (by decide) (fun op h => by simp [failSendEnv, allOkEnv, h])).1⟩

/-! ## Claim C5 -/

/-- C5: marker-window reconciliation is idempotent — when the session
exists and a window named after the worktree is present, the provisioning
entry point issues only the `has-session` probe, the `list-windows` query
and the attach/switch step (no split, create-window or kill-window
operations); when the marker window is absent, it kills every listed
window (kill failures ignored: the conclusion holds for any environment
regardless of how `kill-window` calls fare) and rebuilds the full pane
tree before attaching. -/
theorem provision_reconciliation (env : TmuxEnv) (name dir : String) (cfg : Config)
    (hinst : env.installed = true) (hex : env.sessionOn = true) :
    ((windowLines env.windowsOutput).contains name = true →
      env.ok (Op.listWindows (sanitizeSessionName name)) = true →
      (CreateOrAttachSession env name dir cfg).1 =
        [Op.hasSession (sanitizeSessionName name),
          Op.listWindows (sanitizeSessionName name)] ++
          (attachSession env (sanitizeSessionName name)).1 ∧
      ∀ op ∈ (CreateOrAttachSession env name dir cfg).1, op.isStructural = false) ∧
    ((windowLines env.windowsOutput).contains name = false →
      (∀ op : Op, op.isKillWindow = false → env.ok op = true) →
      (CreateOrAttachSession env name dir cfg).1 =
        [Op.hasSession (sanitizeSessionName name),
          Op.listWindows (sanitizeSessionName name)] ++
          ((windowLines env.windowsOutput).filter (· ≠ "")).map
            (Op.killWindow (sanitizeSessionName name)) ++
          [Op.newWindow (sanitizeSessionName name) name dir] ++
          (createPaneLayout env (sanitizeSessionName name) name dir cfg).1 ++
          (attachSession env (sanitizeSessionName name)).1) := by
  constructor
  · intro hcont hlok
    have hens : ensureWindows env (sanitizeSessionName name) name dir cfg =
        ([Op.listWindows (sanitizeSessionName name)], .ok ()) := by
      simp only [ensureWindows]
      rw [if_neg (not_not_intro hlok), if_pos hcont]
    have htr : (CreateOrAttachSession env name dir cfg).1 =
        [Op.hasSession (sanitizeSessionName name),
          Op.listWindows (sanitizeSessionName name)] ++
          (attachSession env (sanitizeSessionName name)).1 := by
      simp only [CreateOrAttachSession, IsInstalled]
      rw [if_neg (not_not_intro hinst)]
      simp only [SessionExists]
      rw [if_pos hex, hens]
      simp
    refine ⟨htr, ?_⟩
    intro op hop
    rw [htr] at hop
    simp only [List.mem_append, List.mem_cons, List.not_mem_nil, or_false] at hop
    rcases hop with (rfl | rfl) | hop
    · rfl
    · rfl
    · exact (attachSession_mem env (sanitizeSessionName name) op hop).2.2.1
  · intro hcont hkills
    have hlok : env.ok (Op.listWindows (sanitizeSessionName name)) = true :=
      hkills _ rfl
    have hnew : env.ok (Op.newWindow (sanitizeSessionName name) name dir) = true :=
      hkills _ rfl
    have hens : (ensureWindows env (sanitizeSessionName name) name dir cfg).1 =
        Op.listWindows (sanitizeSessionName name) ::
          ((windowLines env.windowsOutput).filter (· ≠ "")).map
            (Op.killWindow (sanitizeSessionName name)) ++
          [Op.newWindow (sanitizeSessionName name) name dir] ++
          (createPaneLayout env (sanitizeSessionName name) name dir cfg).1 := by
      simp only [ensureWindows]
      rw [if_neg (not_not_intro hlok)]
      rw [if_neg (by rw [hcont]; simp)]
      rw [if_neg (not_not_intro hnew)]
    simp only [CreateOrAttachSession, IsInstalled]
    rw [if_neg (not_not_intro hinst)]
    simp only [SessionExists]
    rw [if_pos hex]
    rw [hens]
    simp [List.append_assoc]

/-- Witness for C5: a session whose marker window `wt1` is already present
receives only probe, query and attach. -/
theorem provision_reconciliation_witness :
    markerEnv.installed = true ∧ markerEnv.sessionOn = true ∧
    (windowLines markerEnv.windowsOutput).contains "wt1" = true ∧
    (CreateOrAttachSession markerEnv "wt1" "/d" threeWinCfg).1 =
      [Op.hasSession (sanitizeSessionName "wt1"),
        Op.listWindows (sanitizeSessionName "wt1")] ++
        (attachSession markerEnv (sanitizeSessionName "wt1")).1 :=
  ⟨rfl, rfl, by decide,
    ((provision_reconciliation markerEnv "wt1" "/d" threeWinCfg rfl rfl).1
      (by decide) rfl).1⟩
